import Mathlib

/-!
Shallow embedding of the bs-date library (Bikram Sambat ⇄ Anno Domini date
conversion).

The source is a small JavaScript library built around

* a static table `monthDaysInBSYear` mapping each BS year 2000‥2090 to its
  twelve month lengths (`src/config.js`),
* a `BSDate` class with conversion methods `toAD` / `fromAD` implemented via
  private helpers `#bsToJulianDays` / `#julianDaysToBS` (`src/bs-date.js`),
* a `Date.prototype.toBS` extension with an AD-range guard
  (`src/date-utils.js`),
* presentation helpers `toNepali`, `monthName`, `dayName` and a
  `Number.prototype.toNepali` numeral transliteration.

Modelling conventions:

* JavaScript numbers are modelled as `ℤ` where the code treats them as whole
  numbers (year/month/day components) and as `ℚ` for Julian day values (the
  arithmetic performed by the code — additions and subtractions of integers
  and halves — is exact in IEEE doubles on this domain, so `ℚ` coincides with
  the JS float behaviour).
* An AD `Date` instant is represented by its Julian day value (`ℚ`); the npm
  `julian` package maps a `Date` to `unixMillis / 86400000 + 2440587.5`, so
  midnight-UTC calendar dates land on half-integers and `getTime()` order is
  Julian-day order.
* Thrown JS exceptions are modelled with `Except ErrKind`; `ErrKind`
  distinguishes the plain `Error` of the constructor, `BSDateOutOfRangeError`,
  `DateOutOfRangeError` and a runtime `TypeError` (the JS failure mode of
  `undefined.reduce` when a table lookup misses).
* `undefined` results (out-of-bounds array reads) are modelled with `Option`.
-/

namespace BsDate

/-- A Bikram Sambat date, mirroring the `BSDate` class fields
`year` / `month` / `day` (plain integers, not validated at construction). -/
structure BSDate where
  year : ℤ
  month : ℤ
  day : ℤ
deriving DecidableEq, Repr

/-- The kinds of JS exceptions the library can raise:
`jsError` is a plain `Error` (the constructor's missing-argument check and the
`dayName` option check), `bsDateOutOfRange` is `BSDateOutOfRangeError`,
`dateOutOfRange` is `DateOutOfRangeError` (`src/errors.js`), and `typeError`
is the runtime `TypeError` JS raises when a missing table entry (`undefined`)
is dereferenced with `.reduce`. -/
inductive ErrKind where
  | jsError (msg : String)
  | bsDateOutOfRange (msg : String)
  | dateOutOfRange (msg : String)
  | typeError (msg : String)
deriving DecidableEq, Repr

deriving instance DecidableEq for Except

/-- JS array indexing `l[i]` for a possibly negative index: any index outside
the array yields `undefined`, modelled as `none`. -/
def jsIndex {α : Type} (l : List α) (i : ℤ) : Option α :=
  if i < 0 then none else l.get? i.toNat

/-- The rows of the `monthDaysInBSYear` table from `src/config.js`, in key
order: entry `k` is the list of twelve month lengths of BS year `2000 + k`,
for BS years 2000‥2090. -/
def bsMonthRows : List (List ℕ) := [
  [30, 32, 31, 32, 31, 30, 30, 30, 29, 30, 29, 31],  -- 2000
  [31, 31, 32, 31, 31, 31, 30, 29, 30, 29, 30, 30],  -- 2001
  [31, 31, 32, 32, 31, 30, 30, 29, 30, 29, 30, 30],  -- 2002
  [31, 32, 31, 32, 31, 30, 30, 30, 29, 29, 30, 31],  -- 2003
  [30, 32, 31, 32, 31, 30, 30, 30, 29, 30, 29, 31],  -- 2004
  [31, 31, 32, 31, 31, 31, 30, 29, 30, 29, 30, 30],  -- 2005
  [31, 31, 32, 32, 31, 30, 30, 29, 30, 29, 30, 30],  -- 2006
  [31, 32, 31, 32, 31, 30, 30, 30, 29, 29, 30, 31],  -- 2007
  [31, 31, 31, 32, 31, 31, 29, 30, 30, 29, 29, 31],  -- 2008
  [31, 31, 32, 31, 31, 31, 30, 29, 30, 29, 30, 30],  -- 2009
  [31, 31, 32, 32, 31, 30, 30, 29, 30, 29, 30, 30],  -- 2010
  [31, 32, 31, 32, 31, 30, 30, 30, 29, 29, 30, 31],  -- 2011
  [31, 31, 31, 32, 31, 31, 29, 30, 30, 29, 30, 30],  -- 2012
  [31, 31, 32, 31, 31, 31, 30, 29, 30, 29, 30, 30],  -- 2013
  [31, 31, 32, 32, 31, 30, 30, 29, 30, 29, 30, 30],  -- 2014
  [31, 32, 31, 32, 31, 30, 30, 30, 29, 29, 30, 31],  -- 2015
  [31, 31, 31, 32, 31, 31, 29, 30, 30, 29, 30, 30],  -- 2016
  [31, 31, 32, 31, 31, 31, 30, 29, 30, 29, 30, 30],  -- 2017
  [31, 32, 31, 32, 31, 30, 30, 29, 30, 29, 30, 30],  -- 2018
  [31, 32, 31, 32, 31, 30, 30, 30, 29, 30, 29, 31],  -- 2019
  [31, 31, 31, 32, 31, 31, 30, 29, 30, 29, 30, 30],  -- 2020
  [31, 31, 32, 31, 31, 31, 30, 29, 30, 29, 30, 30],  -- 2021
  [31, 32, 31, 32, 31, 30, 30, 30, 29, 29, 30, 30],  -- 2022
  [31, 32, 31, 32, 31, 30, 30, 30, 29, 30, 29, 31],  -- 2023
  [31, 31, 31, 32, 31, 31, 30, 29, 30, 29, 30, 30],  -- 2024
  [31, 31, 32, 31, 31, 31, 30, 29, 30, 29, 30, 30],  -- 2025
  [31, 32, 31, 32, 31, 30, 30, 30, 29, 29, 30, 31],  -- 2026
  [30, 32, 31, 32, 31, 30, 30, 30, 29, 30, 29, 31],  -- 2027
  [31, 31, 32, 31, 31, 31, 30, 29, 30, 29, 30, 30],  -- 2028
  [31, 31, 32, 31, 32, 30, 30, 29, 30, 29, 30, 30],  -- 2029
  [31, 32, 31, 32, 31, 30, 30, 30, 29, 29, 30, 31],  -- 2030
  [30, 32, 31, 32, 31, 30, 30, 30, 29, 30, 29, 31],  -- 2031
  [31, 31, 32, 31, 31, 31, 30, 29, 30, 29, 30, 30],  -- 2032
  [31, 31, 32, 32, 31, 30, 30, 29, 30, 29, 30, 30],  -- 2033
  [31, 32, 31, 32, 31, 30, 30, 30, 29, 29, 30, 31],  -- 2034
  [30, 32, 31, 32, 31, 31, 29, 30, 30, 29, 29, 31],  -- 2035
  [31, 31, 32, 31, 31, 31, 30, 29, 30, 29, 30, 30],  -- 2036
  [31, 31, 32, 32, 31, 30, 30, 29, 30, 29, 30, 30],  -- 2037
  [31, 32, 31, 32, 31, 30, 30, 30, 29, 29, 30, 31],  -- 2038
  [31, 31, 31, 32, 31, 31, 29, 30, 30, 29, 30, 30],  -- 2039
  [31, 31, 32, 31, 31, 31, 30, 29, 30, 29, 30, 30],  -- 2040
  [31, 31, 32, 32, 31, 30, 30, 29, 30, 29, 30, 30],  -- 2041
  [31, 32, 31, 32, 31, 30, 30, 30, 29, 29, 30, 31],  -- 2042
  [31, 31, 31, 32, 31, 31, 29, 30, 30, 29, 30, 30],  -- 2043
  [31, 31, 32, 31, 31, 31, 30, 29, 30, 29, 30, 30],  -- 2044
  [31, 32, 31, 32, 31, 30, 30, 29, 30, 29, 30, 30],  -- 2045
  [31, 32, 31, 32, 31, 30, 30, 30, 29, 29, 30, 31],  -- 2046
  [31, 31, 31, 32, 31, 31, 30, 29, 30, 29, 30, 30],  -- 2047
  [31, 31, 32, 31, 31, 31, 30, 29, 30, 29, 30, 30],  -- 2048
  [31, 32, 31, 32, 31, 30, 30, 30, 29, 29, 30, 30],  -- 2049
  [31, 32, 31, 32, 31, 30, 30, 30, 29, 30, 29, 31],  -- 2050
  [31, 31, 31, 32, 31, 31, 30, 29, 30, 29, 30, 30],  -- 2051
  [31, 31, 32, 31, 31, 31, 30, 29, 30, 29, 30, 30],  -- 2052
  [31, 32, 31, 32, 31, 30, 30, 30, 29, 29, 30, 30],  -- 2053
  [31, 32, 31, 32, 31, 30, 30, 30, 29, 30, 29, 31],  -- 2054
  [31, 31, 32, 31, 31, 31, 30, 29, 30, 29, 30, 30],  -- 2055
  [31, 31, 32, 31, 32, 30, 30, 29, 30, 29, 30, 30],  -- 2056
  [31, 32, 31, 32, 31, 30, 30, 30, 29, 29, 30, 31],  -- 2057
  [30, 32, 31, 32, 31, 30, 30, 30, 29, 30, 29, 31],  -- 2058
  [31, 31, 32, 31, 31, 31, 30, 29, 30, 29, 30, 30],  -- 2059
  [31, 31, 32, 32, 31, 30, 30, 29, 30, 29, 30, 30],  -- 2060
  [31, 32, 31, 32, 31, 30, 30, 30, 29, 29, 30, 31],  -- 2061
  [30, 32, 31, 32, 31, 31, 29, 30, 29, 30, 29, 31],  -- 2062
  [31, 31, 32, 31, 31, 31, 30, 29, 30, 29, 30, 30],  -- 2063
  [31, 31, 32, 32, 31, 30, 30, 29, 30, 29, 30, 30],  -- 2064
  [31, 32, 31, 32, 31, 30, 30, 30, 29, 29, 30, 31],  -- 2065
  [31, 31, 31, 32, 31, 31, 29, 30, 30, 29, 29, 31],  -- 2066
  [31, 31, 32, 31, 31, 31, 30, 29, 30, 29, 30, 30],  -- 2067
  [31, 31, 32, 32, 31, 30, 30, 29, 30, 29, 30, 30],  -- 2068
  [31, 32, 31, 32, 31, 30, 30, 30, 29, 29, 30, 31],  -- 2069
  [31, 31, 31, 32, 31, 31, 29, 30, 30, 29, 30, 30],  -- 2070
  [31, 31, 32, 31, 31, 31, 30, 29, 30, 29, 30, 30],  -- 2071
  [31, 32, 31, 32, 31, 30, 30, 29, 30, 29, 30, 30],  -- 2072
  [31, 32, 31, 32, 31, 30, 30, 30, 29, 29, 30, 31],  -- 2073
  [31, 31, 31, 32, 31, 31, 30, 29, 30, 29, 30, 30],  -- 2074
  [31, 31, 32, 31, 31, 31, 30, 29, 30, 29, 30, 30],  -- 2075
  [31, 32, 31, 32, 31, 30, 30, 30, 29, 29, 30, 30],  -- 2076
  [31, 32, 31, 32, 31, 30, 30, 30, 29, 30, 29, 31],  -- 2077
  [31, 31, 31, 32, 31, 31, 30, 29, 30, 29, 30, 30],  -- 2078
  [31, 31, 32, 31, 31, 31, 30, 29, 30, 29, 30, 30],  -- 2079
  [31, 32, 31, 32, 31, 30, 30, 30, 29, 29, 30, 30],  -- 2080
  [31, 31, 32, 32, 31, 30, 30, 30, 29, 30, 30, 30],  -- 2081
  [30, 32, 31, 32, 31, 30, 30, 30, 29, 30, 30, 30],  -- 2082
  [31, 31, 32, 31, 31, 30, 30, 30, 29, 30, 30, 30],  -- 2083
  [31, 31, 32, 31, 31, 30, 30, 30, 29, 30, 30, 30],  -- 2084
  [31, 32, 31, 32, 30, 31, 30, 30, 29, 30, 30, 30],  -- 2085
  [30, 32, 31, 32, 31, 30, 30, 30, 29, 30, 30, 30],  -- 2086
  [31, 31, 32, 31, 31, 31, 30, 30, 29, 30, 30, 30],  -- 2087
  [30, 31, 32, 32, 30, 31, 30, 30, 29, 30, 30, 30],  -- 2088
  [30, 32, 31, 32, 31, 30, 30, 30, 29, 30, 30, 30],  -- 2089
  [30, 32, 31, 32, 31, 30, 30, 30, 29, 30, 30, 30]   -- 2090
]

/-- The `monthDaysInBSYear` lookup: the table's keys are exactly the BS years
2000‥2090 (a JS object with integer-like keys enumerates them in ascending
numeric order, matching the source order of `config.js`).  A missing year
yields `undefined` (`none`). -/
def monthDaysInBSYear (y : ℤ) : Option (List ℕ) :=
  jsIndex bsMonthRows (y - 2000)

/-- `epochJulianDays` from `src/config.js`: the Julian day value of the epoch
AD instant 1943-04-14T00:00Z, paired with BS 2000-01-01. -/
def epochJulianDays : ℚ := 2430828.5

/-- `epochBS` from `src/config.js` (`[2000, 1, 1]`): the scan loops only use
its year component. -/
def epochBSYear : ℤ := 2000

/-- First key of the table (`Object.keys(monthDaysInBSYear)[0]`). -/
def tableFirstYear : ℤ := 2000

/-- Last key of the table (`Object.keys(...)[length - 1]`). -/
def tableLastYear : ℤ := 2000 + (bsMonthRows.length - 1 : ℕ)

/-- The message built by `#validateBSDate` when `#validDate` fails. -/
def rangeMessage (y : ℤ) : String :=
  "Year " ++ toString y ++ " is out of valid range (" ++
    toString tableFirstYear ++ "-" ++ toString tableLastYear ++ ")"

/-- `BSDate.#validDate`: the year must be a key of the table, the month must
lie in `[1, 12]`, and the day in `[1, monthDaysInBSYear[year][month-1]]`
(in JS, `day <= undefined` is false, which the `none` branch mirrors). -/
def validDate (b : BSDate) : Bool :=
  match monthDaysInBSYear b.year with
  | none => false
  | some row =>
    decide (0 < b.month) && decide (b.month ≤ 12) && decide (0 < b.day) &&
      (match jsIndex row (b.month - 1) with
       | none => false
       | some len => decide (b.day ≤ (len : ℤ)))

/-- Sum of the twelve month lengths of each row (the repeated
`monthDaysInBSYear[year].reduce((acc, curr) => acc + curr, 0)` in the source
is the sum of the row). -/
def yearTotals : List ℕ := bsMonthRows.map List.sum

/-- Days contributed by the whole BS years `2000‥(y-1)`: the first loop of
`BSDate.#bsToJulianDays` (`for (year = epochBS[0]; year < this.year; year++)`)
adds the sum of each such year's row, i.e. the sum of the first `y - 2000`
rows of the table. -/
def yearsBefore (y : ℤ) : ℕ :=
  (yearTotals.take (y - 2000).toNat).sum

/-- Days contributed by the whole months `1‥(m-1)` of year `y`:
`monthDaysInBSYear[this.year].slice(0, this.month - 1).reduce(...)` in the
source (a missing year contributes the empty slice, which can only happen on
an invalid date the caller has already rejected). -/
def monthsBefore (y m : ℤ) : ℕ :=
  (((monthDaysInBSYear y).getD []).take (m - 1).toNat).sum

/-- `BSDate.#bsToJulianDays`: epoch Julian days plus whole years, whole
months, and `day - 1`. -/
def bsToJulianDays (b : BSDate) : ℚ :=
  epochJulianDays + (yearsBefore b.year : ℚ) + (monthsBefore b.year b.month : ℚ)
    + ((b.day : ℚ) - 1)

/-- `BSDate.toAD`: validate (`#validateBSDate` throws `BSDateOutOfRangeError`
with `rangeMessage` on failure), then convert to Julian days.  The resulting
AD `Date` is represented by its Julian day value (the external
`julian.toDate` bridge is order- and value-faithful on this representation). -/
def toAD (b : BSDate) : Except ErrKind ℚ :=
  if validDate b then .ok (bsToJulianDays b)
  else .error (.bsDateOutOfRange (rangeMessage b.year))

/-- The year-scan loop of `BSDate.#julianDaysToBS`, walking the table rows
from BS year 2000 upward: while `remaining > (sum of current year's row)`,
subtract the sum and advance the year.  Because the table's keys are exactly
the contiguous years 2000‥2090, looking up `monthDaysInBSYear[year]` as
`year` increments is walking this row list; when the rows are exhausted the
lookup is `undefined` and the JS `undefined.reduce(...)` raises a
`TypeError`.  On success, returns the year, its row, and the remaining
days. -/
def yearScanAux : List (List ℕ) → ℤ → ℚ → Except ErrKind (ℤ × List ℕ × ℚ)
  | [], _, _ =>
    .error (.typeError "Cannot read properties of undefined (reading 'reduce')")
  | row :: rest, year, remaining =>
    if (row.sum : ℚ) < remaining then
      yearScanAux rest (year + 1) (remaining - (row.sum : ℚ))
    else
      .ok (year, row, remaining)

/-- The month-scan loop of `BSDate.#julianDaysToBS`, walking the row of the
year found by the year scan: while
`remaining > monthDaysInBSYear[year][month - 1]`, subtract that month length
and advance the month.  When the index runs past the row the JS comparison
`remaining > undefined` is false and the loop exits, which the `[]` case
mirrors. -/
def monthScanAux : List ℕ → ℤ → ℚ → ℤ × ℚ
  | [], month, remaining => (month, remaining)
  | len :: rest, month, remaining =>
    if (len : ℚ) < remaining then
      monthScanAux rest (month + 1) (remaining - (len : ℚ))
    else
      (month, remaining)

/-- `BSDate.#julianDaysToBS`: subtract the epoch, scan years, scan months,
and set `day = Math.ceil(remainingDays + 1)`. -/
def julianDaysToBS (julianDays : ℚ) : Except ErrKind (ℤ × ℤ × ℤ) :=
  match yearScanAux bsMonthRows epochBSYear (julianDays - epochJulianDays) with
  | .error e => .error e
  | .ok (year, row, remaining) =>
    let scanned := monthScanAux row 1 remaining
    .ok (year, scanned.1, ⌈scanned.2 + 1⌉)

/-- The `BSDate` constructor: each of `year`, `month`, `day` must be present
and truthy (`!year || !month || !day` throws a plain `Error`); a missing
argument is `none`, and `0` is the falsy integer. -/
def mkBSDate (year month day : Option ℤ) : Except ErrKind BSDate :=
  match year, month, day with
  | some y, some m, some d =>
    if y = 0 ∨ m = 0 ∨ d = 0 then
      .error (.jsError "Year, month, and day are required")
    else
      .ok ⟨y, m, d⟩
  | _, _, _ => .error (.jsError "Year, month, and day are required")

/-- `BSDate.fromAD`: convert the AD date's Julian day value to BS components
and pass them to the constructor. -/
def fromAD (julianDays : ℚ) : Except ErrKind BSDate :=
  match julianDaysToBS julianDays with
  | .error e => .error e
  | .ok (y, m, d) => mkBSDate (some y) (some m) (some d)

/-- Modelled from the spec: the external Gregorian-to-Julian-day utility (the
npm `julian` package, §6 of the spec), which maps an AD calendar date at
midnight UTC to its Julian day value.  This is the standard Gregorian
Julian-day-number formula (integer divisions; all intermediate operands are
positive on the library's domain, where floor and truncating division agree),
shifted by −0.5 from the noon-based day number to the midnight instant. -/
def gregorianJDN (y m d : ℤ) : ℤ :=
  let a := Int.ediv (14 - m) 12
  let y2 := y + 4800 - a
  let m2 := m + 12 * a - 3
  d + Int.ediv (153 * m2 + 2) 5 + 365 * y2 + Int.ediv y2 4 - Int.ediv y2 100
    + Int.ediv y2 400 - 32045

/-- Modelled from the spec: Julian day value of the midnight-UTC instant of a
Gregorian calendar date (see `gregorianJDN`). -/
def gregorianToJD (y m d : ℤ) : ℚ :=
  ((gregorianJDN y m d : ℤ) : ℚ) - 0.5

/-- `epochADStart` from `src/config.js` (`new Date("1943-04-14")`, midnight
UTC), as a Julian day value. -/
def epochADStart : ℚ := gregorianToJD 1943 4 14

/-- `epochADEnd` from `src/config.js` (`new Date("2034-04-13")`, midnight
UTC), as a Julian day value. -/
def epochADEnd : ℚ := gregorianToJD 2034 4 13

/-- `Date.prototype.toBS`: reject instants outside
`[epochADStart, epochADEnd]` (the `getTime()` comparison is Julian-day order
on this representation) with `DateOutOfRangeError`, then apply
`BSDate.fromAD`. -/
def toBS (julianDays : ℚ) : Except ErrKind BSDate :=
  if julianDays < epochADStart ∨ epochADEnd < julianDays then
    .error (.dateOutOfRange "Date is out of range")
  else
    fromAD julianDays

/-! ### Presentation layer (`toNepali`, `monthName`, `dayName`) -/

/-- `Object.keys(months)` from `src/config.js`: the twelve Devanagari month
names in source order. -/
def monthKeysNepali : List String :=
  ["बैशाख", "जेठ", "असार", "श्रावण", "भाद्र", "आश्विन",
   "कार्तिक", "मंसिर", "पुष", "माघ", "फाल्गुण", "चैत"]

/-- `Object.values(months)` from `src/config.js`: the romanized month
names in source order. -/
def monthValuesRomanized : List String :=
  ["Baisakh", "Jeth", "Asar", "Shrawan", "Bhadra", "Ashwin",
   "Kartik", "Mangsir", "Poush", "Magh", "Falgun", "Chaitra"]

/-- `BSDate.monthName`: index the month-name list with `month - 1`; an
out-of-range month yields `undefined` (`none`), exactly as a JS array read. -/
def monthName (b : BSDate) (romanized : Bool) : Option String :=
  if romanized then jsIndex monthValuesRomanized (b.month - 1)
  else jsIndex monthKeysNepali (b.month - 1)

/-- The digit table of `Number.prototype.toNepali` (`src/number-utils.js`):
each Arabic digit maps to its Devanagari digit; any other character (such as
the minus sign) maps to `undefined`, which `Array.prototype.join` renders as
the empty string. -/
def nepaliDigit (c : Char) : String :=
  if c = '0' then "०" else if c = '1' then "१" else if c = '2' then "२"
  else if c = '3' then "३" else if c = '4' then "४" else if c = '5' then "५"
  else if c = '6' then "६" else if c = '7' then "७" else if c = '8' then "८"
  else if c = '9' then "९" else ""

/-- `Number.prototype.toNepali`: transliterate the decimal representation
digit by digit. -/
def toNepaliNum (n : ℤ) : String :=
  ((toString n).toList.map nepaliDigit).foldl (· ++ ·) ""

/-- `BSDate.toNepali`: the template
```${this.monthName()} ${this.day.toNepali()}, ${this.year.toNepali()}``` —
a JS template renders an `undefined` interpolation as the string
`"undefined"`. -/
def toNepali (b : BSDate) : String :=
  (monthName b false).getD "undefined" ++ " " ++ toNepaliNum b.day ++ ", "
    ++ toNepaliNum b.year

/-- `Object.keys(weekdays)` from `src/config.js`. -/
def weekdayKeysNepali : List String :=
  ["आइतबार", "सोमबार", "मंगलवार", "बुधबार", "बिहीबार", "शुक्रबार", "शनिवार"]

/-- `Object.values(weekdays)` from `src/config.js`. -/
def weekdayValuesRomanized : List String :=
  ["Aaitabar", "Sombar", "Mangalbar", "Budhbar", "Bihibar", "Shukrabar",
   "Shanibar"]

/-- `weekdaysLocal` from `src/config.js`. -/
def weekdaysLocal : List String :=
  ["Sunday", "Monday", "Tuesday", "Wednesday", "Thursday", "Friday",
   "Saturday"]

/-- Modelled from the spec: the host `Date#getDay` (0 = Sunday ‥
6 = Saturday) of the instant with the given Julian day value, for a UTC
environment.  Julian day 0 begins at noon on a Monday, so the calendar day
containing instant `jd` has noon-based day number `⌊jd + 0.5⌋` and weekday
index `(⌊jd + 0.5⌋ + 1) % 7` counted from Sunday. -/
def getDay (jd : ℚ) : ℕ :=
  ((⌊jd + 0.5⌋ + 1) % 7).toNat

/-- `BSDate.dayName`: reject the `romanized`/`localized` combination with a
plain `Error`, convert to AD (which validates and may throw
`BSDateOutOfRangeError`), then pick the weekday name by `getDay`. -/
def dayName (b : BSDate) (romanized localized : Bool) : Except ErrKind String :=
  if romanized && localized then
    .error (.jsError "You must provide exactly one of :romanized or :localized")
  else
    match toAD b with
    | .error e => .error e
    | .ok adDate =>
      if localized then .ok (weekdaysLocal.getD (getDay adDate) "")
      else if romanized then .ok (weekdayValuesRomanized.getD (getDay adDate) "")
      else .ok (weekdayKeysNepali.getD (getDay adDate) "")

/-! ### Integer mirrors of the scan loops

The conversion routines operate on `ℚ` because a Julian day value may carry a
time-of-day fraction.  On whole-day offsets the arithmetic stays integral; the
following mirrors compute the same scans over `ℤ` and are proved equal to the
`ℚ` versions on integer inputs, so that concrete runs of the algorithm can be
evaluated by `decide`. -/

/-- `yearScanAux` restricted to an integer remaining-day count. -/
def yearScanZ : List (List ℕ) → ℤ → ℤ → Except ErrKind (ℤ × List ℕ × ℤ)
  | [], _, _ =>
    .error (.typeError "Cannot read properties of undefined (reading 'reduce')")
  | row :: rest, year, remaining =>
    if (row.sum : ℤ) < remaining then
      yearScanZ rest (year + 1) (remaining - (row.sum : ℤ))
    else
      .ok (year, row, remaining)

/-- `monthScanAux` restricted to an integer remaining-day count. -/
def monthScanZ : List ℕ → ℤ → ℤ → ℤ × ℤ
  | [], month, remaining => (month, remaining)
  | len :: rest, month, remaining =>
    if (len : ℤ) < remaining then
      monthScanZ rest (month + 1) (remaining - (len : ℤ))
    else
      (month, remaining)

/-- `julianDaysToBS` restricted to an integer offset from the epoch. -/
def julianDaysToBSZ (offset : ℤ) : Except ErrKind (ℤ × ℤ × ℤ) :=
  match yearScanZ bsMonthRows epochBSYear offset with
  | .error e => .error e
  | .ok (year, row, remaining) =>
    let scanned := monthScanZ row 1 remaining
    .ok (year, scanned.1, scanned.2 + 1)

theorem yearScanAux_intCast (rows : List (List ℕ)) (year n : ℤ) :
    yearScanAux rows year ((n : ℤ) : ℚ) =
      (yearScanZ rows year n).map (fun p => (p.1, p.2.1, ((p.2.2 : ℤ) : ℚ))) := by
  induction rows generalizing year n with
  | nil => rfl
  | cons row rest ih =>
    simp only [yearScanAux, yearScanZ]
    have hcast : ((row.sum : ℕ) : ℚ) = (((row.sum : ℕ) : ℤ) : ℚ) := (Int.cast_natCast _).symm
    by_cases h : (row.sum : ℤ) < n
    · have hq : ((row.sum : ℕ) : ℚ) < ((n : ℤ) : ℚ) := by
        rw [hcast]
        exact Int.cast_lt.mpr h
      rw [if_pos hq, if_pos h]
      have hsub : ((n : ℤ) : ℚ) - ((row.sum : ℕ) : ℚ) = ((n - (row.sum : ℤ) : ℤ) : ℚ) := by
        rw [hcast, Int.cast_sub]
      rw [hsub, ih]
    · have hq : ¬ ((row.sum : ℕ) : ℚ) < ((n : ℤ) : ℚ) := by
        rw [hcast]
        exact fun hc => h (Int.cast_lt.mp hc)
      rw [if_neg hq, if_neg h]
      rfl

theorem monthScanAux_intCast (row : List ℕ) (month n : ℤ) :
    monthScanAux row month ((n : ℤ) : ℚ) =
      ((monthScanZ row month n).1, (((monthScanZ row month n).2 : ℤ) : ℚ)) := by
  induction row generalizing month n with
  | nil => rfl
  | cons len rest ih =>
    simp only [monthScanAux, monthScanZ]
    have hcast : ((len : ℕ) : ℚ) = (((len : ℕ) : ℤ) : ℚ) := (Int.cast_natCast _).symm
    by_cases h : (len : ℤ) < n
    · have hq : ((len : ℕ) : ℚ) < ((n : ℤ) : ℚ) := by
        rw [hcast]
        exact Int.cast_lt.mpr h
      rw [if_pos hq, if_pos h]
      have hsub : ((n : ℤ) : ℚ) - ((len : ℕ) : ℚ) = ((n - (len : ℤ) : ℤ) : ℚ) := by
        rw [hcast, Int.cast_sub]
      rw [hsub, ih]
    · have hq : ¬ ((len : ℕ) : ℚ) < ((n : ℤ) : ℚ) := by
        rw [hcast]
        exact fun hc => h (Int.cast_lt.mp hc)
      rw [if_neg hq, if_neg h]

theorem julianDaysToBS_intCast (n : ℤ) :
    julianDaysToBS (epochJulianDays + (n : ℚ)) = julianDaysToBSZ n := by
  unfold julianDaysToBS julianDaysToBSZ
  have h0 : epochJulianDays + (n : ℚ) - epochJulianDays = ((n : ℤ) : ℚ) := by ring
  rw [h0, yearScanAux_intCast]
  cases hy : yearScanZ bsMonthRows epochBSYear n with
  | error e => rfl
  | ok p =>
    obtain ⟨year, row, rem⟩ := p
    simp only [Except.map]
    rw [monthScanAux_intCast]
    have hceil : ∀ r : ℤ, ⌈((r : ℤ) : ℚ) + 1⌉ = r + 1 := by
      intro r
      rw [show ((r : ℤ) : ℚ) + 1 = ((r + 1 : ℤ) : ℚ) by push_cast; ring]
      exact Int.ceil_intCast _
    simp only [hceil]

/-! ### Bridging lemmas between `ℚ` Julian day values and integer offsets -/

theorem epochJulianDays_eq : epochJulianDays = (2430829 : ℚ) - 0.5 := by
  norm_num [epochJulianDays]

theorem gregorianToJD_sub_epoch (y m d : ℤ) :
    gregorianToJD y m d = epochJulianDays + ((gregorianJDN y m d - 2430829 : ℤ) : ℚ) := by
  unfold gregorianToJD
  rw [epochJulianDays_eq]
  push_cast
  ring

theorem gregorianToJD_lt_iff (a b c x y z : ℤ) :
    gregorianToJD a b c < gregorianToJD x y z ↔ gregorianJDN a b c < gregorianJDN x y z := by
  unfold gregorianToJD
  rw [sub_lt_sub_iff_right]
  exact Int.cast_lt

theorem gregorianToJD_le_iff (a b c x y z : ℤ) :
    gregorianToJD a b c ≤ gregorianToJD x y z ↔ gregorianJDN a b c ≤ gregorianJDN x y z := by
  unfold gregorianToJD
  rw [sub_le_sub_iff_right]
  exact Int.cast_le

theorem bsToJulianDays_eq (b : BSDate) :
    bsToJulianDays b =
      epochJulianDays
        + (((yearsBefore b.year : ℤ) + (monthsBefore b.year b.month : ℤ) + (b.day - 1) : ℤ) : ℚ) := by
  unfold bsToJulianDays
  push_cast
  ring

/-- `Date.prototype.toBS` at the midnight instant of a Gregorian calendar
date, reduced to integer arithmetic. -/
theorem toBS_gregorian (y m d : ℤ) :
    toBS (gregorianToJD y m d) =
      if gregorianJDN y m d < gregorianJDN 1943 4 14
          ∨ gregorianJDN 2034 4 13 < gregorianJDN y m d then
        .error (.dateOutOfRange "Date is out of range")
      else
        match julianDaysToBSZ (gregorianJDN y m d - 2430829) with
        | .error e => .error e
        | .ok (yy, mm, dd) => mkBSDate (some yy) (some mm) (some dd) := by
  unfold toBS epochADStart epochADEnd
  simp only [gregorianToJD_lt_iff]
  by_cases h : gregorianJDN y m d < gregorianJDN 1943 4 14
      ∨ gregorianJDN 2034 4 13 < gregorianJDN y m d
  · rw [if_pos h, if_pos h]
  · rw [if_neg h, if_neg h]
    unfold fromAD
    rw [gregorianToJD_sub_epoch, julianDaysToBS_intCast]

/-! ### Helper lemmas about the table and prefix sums -/

theorem sum_take_mono (l : List ℕ) {a b : ℕ} (h : a ≤ b) :
    (l.take a).sum ≤ (l.take b).sum := by
  have h1 : (l.take b).take a = l.take a := by
    rw [List.take_take, min_eq_left h]
  calc (l.take a).sum = ((l.take b).take a).sum := by rw [h1]
    _ ≤ ((l.take b).take a).sum + ((l.take b).drop a).sum := Nat.le_add_right _ _
    _ = (l.take b).sum := List.sum_take_add_sum_drop _ _

/-- Every row of the table has exactly twelve entries, all positive. -/
theorem bsMonthRows_entries : ∀ row ∈ bsMonthRows, row.length = 12 ∧ ∀ x ∈ row, 0 < x := by
  decide

theorem bsMonthRows_length : bsMonthRows.length = 91 := by decide

/-- A successful table lookup pins the year into `[2000, 2090]` and is a
positional read of the row list. -/
theorem monthDaysInBSYear_some {y : ℤ} {row : List ℕ}
    (h : monthDaysInBSYear y = some row) :
    2000 ≤ y ∧ y ≤ 2090 ∧ bsMonthRows.get? (y - 2000).toNat = some row := by
  unfold monthDaysInBSYear jsIndex at h
  by_cases hc : y - 2000 < 0
  · rw [if_pos hc] at h
    exact absurd h (by simp)
  · rw [if_neg hc] at h
    have hlt : (y - 2000).toNat < bsMonthRows.length := (List.get?_eq_some.mp h).1
    rw [bsMonthRows_length] at hlt
    refine ⟨by omega, by omega, h⟩

theorem validDate_iff (b : BSDate) :
    validDate b = true ↔
      ∃ row, monthDaysInBSYear b.year = some row ∧ 1 ≤ b.month ∧ b.month ≤ 12
        ∧ 1 ≤ b.day ∧ ∃ len, jsIndex row (b.month - 1) = some len ∧ b.day ≤ (len : ℤ) := by
  unfold validDate
  cases h : monthDaysInBSYear b.year with
  | none => simp [h]
  | some row =>
    cases hl : jsIndex row (b.month - 1) with
    | none =>
      simp only [hl, Bool.and_false, Bool.false_eq_true, false_iff]
      rintro ⟨row2, hrow2, -, -, -, len, hlen, -⟩
      cases hrow2
      rw [hl] at hlen
      cases hlen
    | some len =>
      simp only [hl, Bool.and_eq_true, decide_eq_true_eq]
      constructor
      · rintro ⟨⟨⟨hm1, hm2⟩, hd1⟩, hd2⟩
        exact ⟨row, rfl, by omega, hm2, by omega, len, hl, hd2⟩
      · rintro ⟨row2, hrow2, hm1, hm2, hd1, len2, hlen2, hd2⟩
        cases hrow2
        rw [hl] at hlen2
        cases hlen2
        exact ⟨⟨⟨by omega, hm2⟩, by omega⟩, hd2⟩

/-! ### Behaviour of the scan loops -/

/-- The year scan consumes exactly the rows whose cumulative total the
remaining-day count strictly exceeds: entering with the total of `pre` plus a
residue `s` with `0 < s ≤ sum of the next row` stops at that row. -/
theorem yearScanZ_split (pre : List (List ℕ)) (row : List ℕ) (post : List (List ℕ))
    (year s : ℤ) (hs : 0 < s) (hle : s ≤ (row.sum : ℤ)) :
    yearScanZ (pre ++ row :: post) year (((pre.map List.sum).sum : ℕ) + s)
      = .ok (year + pre.length, row, s) := by
  induction pre generalizing year with
  | nil =>
    simp only [List.nil_append, List.map_nil, List.sum_nil, Nat.cast_zero, zero_add,
      List.length_nil, Nat.cast_zero, add_zero, yearScanZ]
    rw [if_neg (by omega)]
  | cons q rest ih =>
    have hsplit : ((List.map List.sum (q :: rest)).sum : ℤ)
        = (q.sum : ℤ) + ((rest.map List.sum).sum : ℤ) := by
      push_cast [List.map_cons, List.sum_cons]
      ring
    simp only [List.cons_append, yearScanZ]
    have hrest : (0 : ℤ) ≤ ((rest.map List.sum).sum : ℕ) := Int.natCast_nonneg _
    rw [if_pos (by omega)]
    have harg : ((List.map List.sum (q :: rest)).sum : ℕ) + s - (q.sum : ℤ)
        = ((rest.map List.sum).sum : ℕ) + s := by omega
    rw [harg]
    refine (ih (year + 1)).trans ?_
    have hl : year + 1 + (rest.length : ℤ) = year + ((q :: rest).length : ℤ) := by
      simp only [List.length_cons]
      push_cast
      ring
    rw [hl]

/-- The month scan consumes exactly the leading entries whose cumulative sum
the remaining-day count strictly exceeds. -/
theorem monthScanZ_split (pre : List ℕ) (len : ℕ) (post : List ℕ)
    (month s : ℤ) (hs : 0 < s) (hle : s ≤ (len : ℤ)) :
    monthScanZ (pre ++ len :: post) month ((pre.sum : ℕ) + s)
      = (month + pre.length, s) := by
  induction pre generalizing month with
  | nil =>
    simp only [List.nil_append, List.sum_nil, Nat.cast_zero, zero_add, List.length_nil,
      add_zero, monthScanZ]
    rw [if_neg (by omega)]
  | cons q rest ih =>
    have hsplit : (((q :: rest).sum : ℕ) : ℤ) = (q : ℤ) + (rest.sum : ℤ) := by
      push_cast [List.sum_cons]
      ring
    simp only [List.cons_append, monthScanZ]
    have hrest : (0 : ℤ) ≤ (rest.sum : ℕ) := Int.natCast_nonneg _
    rw [if_pos (by omega)]
    have harg : (((q :: rest).sum : ℕ) : ℤ) + s - (q : ℤ) = (rest.sum : ℕ) + s := by omega
    rw [harg]
    refine (ih (month + 1)).trans ?_
    have hl : month + 1 + (rest.length : ℤ) = month + ((q :: rest).length : ℤ) := by
      simp only [List.length_cons]
      push_cast
      ring
    rw [hl]

/-- When the remaining-day count exceeds the total of all remaining rows, the
year scan falls off the end of the table and reports the JS `TypeError`. -/
theorem yearScanAux_overflow (rows : List (List ℕ)) (year : ℤ) (rem : ℚ)
    (h : ((rows.map List.sum).sum : ℚ) < rem) :
    yearScanAux rows year rem
      = .error (.typeError "Cannot read properties of undefined (reading 'reduce')") := by
  induction rows generalizing year rem with
  | nil => rfl
  | cons row rest ih =>
    have hsplit : ((List.map List.sum (row :: rest)).sum : ℚ)
        = (row.sum : ℚ) + ((rest.map List.sum).sum : ℚ) := by
      push_cast [List.map_cons, List.sum_cons]
      ring
    have hrest : (0 : ℚ) ≤ ((rest.map List.sum).sum : ℕ) := Nat.cast_nonneg _
    simp only [yearScanAux]
    rw [if_pos (by rw [hsplit] at h; linarith)]
    exact ih _ _ (by rw [hsplit] at h; linarith)

/-- When the remaining-day count is nonnegative and at most the total of the
rows, the year scan succeeds, never decreases the year, and leaves a
nonnegative remainder. -/
theorem yearScanAux_ok (rows : List (List ℕ)) (year : ℤ) (rem : ℚ)
    (hne : rows ≠ []) (h0 : 0 ≤ rem) (hle : rem ≤ ((rows.map List.sum).sum : ℚ)) :
    ∃ y2 row rem2, yearScanAux rows year rem = .ok (y2, row, rem2)
      ∧ 0 ≤ rem2 ∧ year ≤ y2 := by
  induction rows generalizing year rem with
  | nil => exact absurd rfl hne
  | cons row rest ih =>
    have hsplit : ((List.map List.sum (row :: rest)).sum : ℚ)
        = (row.sum : ℚ) + ((rest.map List.sum).sum : ℚ) := by
      push_cast [List.map_cons, List.sum_cons]
      ring
    simp only [yearScanAux]
    by_cases h : (row.sum : ℚ) < rem
    · have hrest : rest ≠ [] := by
        rcases rest with - | ⟨q, rest2⟩
        · exfalso
          simp only [List.map_cons, List.map_nil, List.sum_cons, List.sum_nil,
            add_zero] at hle
          linarith
        · simp
      rw [if_pos h]
      obtain ⟨y2, r2, rem2, heq, h02, hy⟩ := ih (year + 1) (rem - (row.sum : ℚ)) hrest
        (by linarith) (by rw [hsplit] at hle; linarith)
      exact ⟨y2, r2, rem2, heq, h02, by linarith⟩
    · rw [if_neg h]
      exact ⟨year, row, rem, rfl, h0, le_refl year⟩

/-- The month scan never decreases the month index and keeps the remainder
nonnegative. -/
theorem monthScanAux_bounds (row : List ℕ) (month : ℤ) (rem : ℚ) (h0 : 0 ≤ rem) :
    month ≤ (monthScanAux row month rem).1 ∧ 0 ≤ (monthScanAux row month rem).2 := by
  induction row generalizing month rem with
  | nil => exact ⟨le_refl _, h0⟩
  | cons len rest ih =>
    simp only [monthScanAux]
    by_cases h : (len : ℚ) < rem
    · rw [if_pos h]
      obtain ⟨h1, h2⟩ := ih (month + 1) (rem - (len : ℚ)) (by linarith)
      exact ⟨by linarith, h2⟩
    · rw [if_neg h]
      exact ⟨le_refl _, h0⟩

set_option maxRecDepth 400000

/-- The validation message spells out the table's first and last keys. -/
theorem rangeMessage_eq (y : ℤ) :
    rangeMessage y = "Year " ++ toString y ++ " is out of valid range (2000-2090)" := by
  unfold rangeMessage
  rw [show toString tableFirstYear = "2000" from rfl,
    show toString tableLastYear = "2090" from rfl]
  simp only [String.append_assoc]
  refine congrArg _ (congrArg _ ?_)
  rfl

/-- Unfolding of the constructor on three present arguments. -/
theorem mkBSDate_some (y m d : ℤ) :
    mkBSDate (some y) (some m) (some d)
      = if y = 0 ∨ m = 0 ∨ d = 0 then
          .error (.jsError "Year, month, and day are required")
        else .ok ⟨y, m, d⟩ := rfl

/-! ### Claim theorems -/

/-- C7: `toAD` agrees with the spec's anchor points: BS 2000-01-01 maps to AD
1943-04-14 and BS 2082-05-25 maps to AD 2025-09-10 (midnight-UTC instants,
represented by their Julian day values). -/
theorem C7_toAD_anchors :
    toAD ⟨2000, 1, 1⟩ = .ok (gregorianToJD 1943 4 14)
    ∧ toAD ⟨2082, 5, 25⟩ = .ok (gregorianToJD 2025 9 10) := by
  constructor
  · unfold toAD
    rw [if_pos (show validDate ⟨2000, 1, 1⟩ = true by decide)]
    rw [bsToJulianDays_eq, gregorianToJD_sub_epoch]
    exact congrArg (fun z : ℤ => Except.ok (epochJulianDays + (z : ℚ))) (by decide)
  · unfold toAD
    rw [if_pos (show validDate ⟨2082, 5, 25⟩ = true by decide)]
    rw [bsToJulianDays_eq, gregorianToJD_sub_epoch]
    exact congrArg (fun z : ℤ => Except.ok (epochJulianDays + (z : ℚ))) (by decide)

/-- C9: the `BSDate` constructor fails with a plain construction `Error`
(never the conversion-time `BSDateOutOfRangeError`) exactly when some
component is missing (`none`) or zero (falsy); with all three components
non-zero it succeeds without any validation. -/
theorem C9_construction (y m d : Option ℤ) :
    ((y.getD 0 = 0 ∨ m.getD 0 = 0 ∨ d.getD 0 = 0) →
        mkBSDate y m d = .error (.jsError "Year, month, and day are required"))
    ∧ (¬(y.getD 0 = 0 ∨ m.getD 0 = 0 ∨ d.getD 0 = 0) →
        mkBSDate y m d = .ok ⟨y.getD 0, m.getD 0, d.getD 0⟩)
    ∧ ∀ s, mkBSDate y m d ≠ .error (.bsDateOutOfRange s) := by
  rcases y with - | yv
  · exact ⟨fun _ => rfl, fun h => by simp at h,
      fun s hs => ErrKind.noConfusion (Except.error.inj hs)⟩
  rcases m with - | mv
  · exact ⟨fun _ => rfl, fun h => by simp at h,
      fun s hs => ErrKind.noConfusion (Except.error.inj hs)⟩
  rcases d with - | dv
  · exact ⟨fun _ => rfl, fun h => by simp at h,
      fun s hs => ErrKind.noConfusion (Except.error.inj hs)⟩
  simp only [Option.getD_some]
  by_cases hz : yv = 0 ∨ mv = 0 ∨ dv = 0
  · refine ⟨fun _ => by rw [mkBSDate_some, if_pos hz], fun h => absurd hz h, fun s hs => ?_⟩
    rw [mkBSDate_some, if_pos hz] at hs
    exact ErrKind.noConfusion (Except.error.inj hs)
  · refine ⟨fun h => absurd h hz, fun _ => by rw [mkBSDate_some, if_neg hz], fun s hs => ?_⟩
    rw [mkBSDate_some, if_neg hz] at hs
    exact Except.noConfusion hs

/-- C9 witness: a concrete successful construction and a concrete
missing-component failure. -/
theorem C9_construction_witness :
    mkBSDate (some 2082) (some 5) (some 25) = .ok ⟨2082, 5, 25⟩
    ∧ mkBSDate (some 2000) (some 1) none
        = .error (.jsError "Year, month, and day are required") := by
  constructor
  · exact (C9_construction (some 2082) (some 5) (some 25)).2.1 (by decide)
  · exact (C9_construction (some 2000) (some 1) none).1 (by decide)

/-- C4: `toAD` succeeds exactly on dates whose year is a table key, whose
month lies in `[1, 12]` and whose day lies in `[1, monthLengths(year)[m-1]]`;
on any other date it fails with `BSDateOutOfRangeError` whose message carries
the supported year bounds 2000–2090. -/
theorem C4_toAD_validation (b : BSDate) :
    ((∃ jd, toAD b = .ok jd) ↔
      ∃ row, monthDaysInBSYear b.year = some row ∧ 1 ≤ b.month ∧ b.month ≤ 12
        ∧ 1 ≤ b.day ∧ ∃ len, jsIndex row (b.month - 1) = some len ∧ b.day ≤ (len : ℤ))
    ∧ (¬(∃ row, monthDaysInBSYear b.year = some row ∧ 1 ≤ b.month ∧ b.month ≤ 12
          ∧ 1 ≤ b.day ∧ ∃ len, jsIndex row (b.month - 1) = some len ∧ b.day ≤ (len : ℤ)) →
        toAD b = .error (.bsDateOutOfRange
          ("Year " ++ toString b.year ++ " is out of valid range (2000-2090)"))) := by
  have hv := validDate_iff b
  by_cases h : validDate b = true
  · refine ⟨⟨fun _ => hv.mp h, fun _ => ⟨bsToJulianDays b, ?_⟩⟩,
      fun hbad => absurd (hv.mp h) hbad⟩
    unfold toAD
    rw [if_pos h]
  · have herr : toAD b = .error (.bsDateOutOfRange (rangeMessage b.year)) := by
      unfold toAD
      rw [if_neg h]
    refine ⟨⟨fun hok => ?_, fun hcond => absurd (hv.mpr hcond) h⟩, fun _ => ?_⟩
    · obtain ⟨jd, hjd⟩ := hok
      rw [herr] at hjd
      exact Except.noConfusion hjd
    · rw [herr, rangeMessage_eq]

/-- C4 witness: BS 1999-05-25 has no table row, so `toAD` reports the
out-of-range error with the 2000–2090 bounds. -/
theorem C4_toAD_validation_witness :
    toAD ⟨1999, 5, 25⟩
      = .error (.bsDateOutOfRange "Year 1999 is out of valid range (2000-2090)") := by
  have h := (C4_toAD_validation ⟨1999, 5, 25⟩).2 (by decide)
  simpa using h

/-- C1: the BS round trip breaks at month boundaries.  BS 2000-02-01 is a
valid date whose forward conversion lands exactly 30 days past the epoch
(month 1 of BS 2000 has 30 days), yet the backward scan — whose loops only
advance on a strict `>` — stays in month 1 and computes day
`Math.ceil(30 + 1) = 31`, returning the invalid triple (2000, 1, 31) instead
of (2000, 2, 1). -/
theorem C1_roundtrip_boundary_failure :
    validDate ⟨2000, 2, 1⟩ = true
    ∧ monthDaysInBSYear 2000 = some [30, 32, 31, 32, 31, 30, 30, 30, 29, 30, 29, 31]
    ∧ bsToJulianDays ⟨2000, 2, 1⟩ = epochJulianDays + ((30 : ℤ) : ℚ)
    ∧ julianDaysToBS (bsToJulianDays ⟨2000, 2, 1⟩) = .ok (2000, 1, 31) := by
  have h30 : bsToJulianDays ⟨2000, 2, 1⟩ = epochJulianDays + ((30 : ℤ) : ℚ) := by
    rw [bsToJulianDays_eq]
    exact congrArg (fun z : ℤ => epochJulianDays + (z : ℚ)) (by decide)
  refine ⟨by decide, by decide, h30, ?_⟩
  rw [h30, julianDaysToBS_intCast]
  decide

/-- C2: the AD round trip breaks on AD 1943-05-14 (30 days past the epoch,
i.e. BS 2000-02-01): the date is inside the guarded AD range, `toBS` produces
the invalid BS triple (2000, 1, 31), and converting that result back with
`toAD` throws `BSDateOutOfRangeError` instead of returning the original
date. -/
theorem C2_ad_roundtrip_failure :
    ¬(gregorianToJD 1943 5 14 < epochADStart ∨ epochADEnd < gregorianToJD 1943 5 14)
    ∧ toBS (gregorianToJD 1943 5 14) = .ok ⟨2000, 1, 31⟩
    ∧ validDate ⟨2000, 1, 31⟩ = false
    ∧ toAD ⟨2000, 1, 31⟩
        = .error (.bsDateOutOfRange "Year 2000 is out of valid range (2000-2090)") := by
  refine ⟨?_, ?_, by decide, by decide⟩
  · unfold epochADStart epochADEnd
    rw [gregorianToJD_lt_iff, gregorianToJD_lt_iff]
    decide
  · rw [toBS_gregorian]
    decide

/-- C5 counterexample: a Julian day value 40 000 days past the epoch (well
past the table total of 33 238 days) makes `julianDaysToBS` fail with the JS
`TypeError` of the missing-row lookup (`undefined.reduce`), not with
`BSDateOutOfRangeError` as the claim states. -/
theorem C5_counterexample :
    julianDaysToBS (epochJulianDays + ((40000 : ℤ) : ℚ))
      = .error (.typeError "Cannot read properties of undefined (reading 'reduce')") := by
  rw [julianDaysToBS_intCast]
  decide

/-- C5 (amended): whenever the offset past the epoch strictly exceeds the
total day count of the whole table, the year scan walks off the table's last
key and the operation terminates with the `TypeError` raised by the failed
lookup — an error, but not `BSDateOutOfRangeError`. -/
theorem C5_overflow_typeError (jd : ℚ)
    (h : (yearTotals.sum : ℚ) < jd - epochJulianDays) :
    julianDaysToBS jd
      = .error (.typeError "Cannot read properties of undefined (reading 'reduce')") := by
  unfold julianDaysToBS
  rw [yearScanAux_overflow bsMonthRows epochBSYear (jd - epochJulianDays) h]

/-- C5 witness: the amended statement applied 34 000 days past the epoch. -/
theorem C5_overflow_typeError_witness :
    (yearTotals.sum : ℚ) < epochJulianDays + ((34000 : ℤ) : ℚ) - epochJulianDays
    ∧ julianDaysToBS (epochJulianDays + ((34000 : ℤ) : ℚ))
        = .error (.typeError "Cannot read properties of undefined (reading 'reduce')") := by
  have hlt : (yearTotals.sum : ℚ) < epochJulianDays + ((34000 : ℤ) : ℚ) - epochJulianDays := by
    rw [show epochJulianDays + ((34000 : ℤ) : ℚ) - epochJulianDays = ((34000 : ℤ) : ℚ) by ring]
    rw [show yearTotals.sum = 33238 from by decide]
    norm_num
  exact ⟨hlt, C5_overflow_typeError _ hlt⟩

/-- The AD-side range bounds expressed against the epoch: the start instant
is the epoch itself and the end instant lies 33 237 days later. -/
theorem epochAD_bounds :
    epochADStart = epochJulianDays ∧ epochADEnd = epochJulianDays + ((33237 : ℤ) : ℚ) := by
  constructor
  · unfold epochADStart gregorianToJD
    rw [show gregorianJDN 1943 4 14 = 2430829 from by decide, epochJulianDays_eq]
    norm_num
  · unfold epochADEnd
    rw [gregorianToJD_sub_epoch,
      show gregorianJDN 2034 4 13 - 2430829 = (33237 : ℤ) from by decide]

/-- C6: `Date.prototype.toBS` fails with `DateOutOfRangeError` exactly
outside `[epochADStart, epochADEnd]` (AD 1943-04-14 ‥ 2034-04-13; in
particular AD 1942-06-25 and AD 2035-06-25 fail), succeeds on every instant
inside the range, and maps AD 1999-06-25 to BS 2056-03-11. -/
theorem C6_toBS_range (jd : ℚ) :
    ((jd < epochADStart ∨ epochADEnd < jd) →
        toBS jd = .error (.dateOutOfRange "Date is out of range"))
    ∧ (epochADStart ≤ jd → jd ≤ epochADEnd → ∃ b, toBS jd = .ok b)
    ∧ toBS (gregorianToJD 1999 6 25) = .ok ⟨2056, 3, 11⟩
    ∧ toBS (gregorianToJD 1942 6 25) = .error (.dateOutOfRange "Date is out of range")
    ∧ toBS (gregorianToJD 2035 6 25) = .error (.dateOutOfRange "Date is out of range") := by
  obtain ⟨hstart, hend⟩ := epochAD_bounds
  refine ⟨fun h => ?_, fun h1 h2 => ?_, ?_, ?_, ?_⟩
  · unfold toBS
    rw [if_pos h]
  · have hno : ¬(jd < epochADStart ∨ epochADEnd < jd) := by
      rintro (hc | hc) <;> linarith
    have hrem0 : 0 ≤ jd - epochJulianDays := by
      rw [hstart] at h1
      linarith
    have hremle : jd - epochJulianDays ≤ ((bsMonthRows.map List.sum).sum : ℚ) := by
      rw [hend] at h2
      rw [show ((bsMonthRows.map List.sum).sum : ℕ) = 33238 from by decide]
      push_cast at h2 ⊢
      linarith
    obtain ⟨y2, row, rem2, hscan, hrem2, hy2⟩ :=
      yearScanAux_ok bsMonthRows epochBSYear (jd - epochJulianDays)
        (by decide) hrem0 hremle
    have hconv : julianDaysToBS jd
        = .ok (y2, (monthScanAux row 1 rem2).1, ⌈(monthScanAux row 1 rem2).2 + 1⌉) := by
      unfold julianDaysToBS
      rw [hscan]
    unfold toBS
    rw [if_neg hno]
    unfold fromAD
    rw [hconv]
    obtain ⟨hm1, hm2⟩ := monthScanAux_bounds row 1 rem2 hrem2
    refine ⟨⟨y2, (monthScanAux row 1 rem2).1, ⌈(monthScanAux row 1 rem2).2 + 1⌉⟩, ?_⟩
    show mkBSDate (some y2) (some (monthScanAux row 1 rem2).1)
        (some ⌈(monthScanAux row 1 rem2).2 + 1⌉) = _
    rw [mkBSDate_some, if_neg ?_]
    have hy : (2000 : ℤ) ≤ y2 := hy2
    have hd : (1 : ℤ) ≤ ⌈(monthScanAux row 1 rem2).2 + 1⌉ := by
      have hle : (1 : ℚ) ≤ (monthScanAux row 1 rem2).2 + 1 := by linarith
      calc (1 : ℤ) = ⌈(1 : ℚ)⌉ := by norm_num
        _ ≤ ⌈(monthScanAux row 1 rem2).2 + 1⌉ := Int.ceil_le_ceil hle
    rintro (hc | hc | hc) <;> omega
  · rw [toBS_gregorian]
    decide
  · rw [toBS_gregorian]
    decide
  · rw [toBS_gregorian]
    decide

/-- C6 witness: AD 2000-01-01 lies inside the range and converts
successfully. -/
theorem C6_toBS_range_witness :
    epochADStart ≤ gregorianToJD 2000 1 1 ∧ gregorianToJD 2000 1 1 ≤ epochADEnd
    ∧ ∃ b, toBS (gregorianToJD 2000 1 1) = .ok b := by
  have h1 : epochADStart ≤ gregorianToJD 2000 1 1 := by
    unfold epochADStart
    rw [gregorianToJD_le_iff]
    decide
  have h2 : gregorianToJD 2000 1 1 ≤ epochADEnd := by
    unfold epochADEnd
    rw [gregorianToJD_le_iff]
    decide
  exact ⟨h1, h2, (C6_toBS_range (gregorianToJD 2000 1 1)).2.1 h1 h2⟩

/-- C3 counterexample: with the remaining offset exactly equal to the total
length of BS year 2000 (365 days), the scans indeed stay in year 2000 and
month 12 — but the computed day is `Math.ceil(31 + 1) = 32`, one `more` than
month 12's table length 31, not the last day of that period. -/
theorem C3_counterexample :
    julianDaysToBS (epochJulianDays + ((365 : ℤ) : ℚ)) = .ok (2000, 12, 32)
    ∧ (bsMonthRows.getD 0 []).sum = 365
    ∧ jsIndex (bsMonthRows.getD 0 []) 11 = some 31 := by
  refine ⟨?_, by decide, by decide⟩
  rw [julianDaysToBS_intCast]
  decide

/-- C3 (amended): when the remaining offset lands exactly on a period
boundary — the cumulative length of the first `m` months of a table year `y`
— the strict-`>` loops do not advance: the result stays in year `y`, month
`m`, but the computed day-of-month is `monthLengths(y)[m-1] + 1`, exceeding
the table's length for that month by one (it does not resolve to the last
day). -/
theorem C3_boundary_amended (y m : ℤ) (row : List ℕ) (len : ℕ)
    (hrow : monthDaysInBSYear y = some row)
    (hm1 : 1 ≤ m) (hm2 : m ≤ 12)
    (hlen : jsIndex row (m - 1) = some len) :
    julianDaysToBS (epochJulianDays
        + (((yearsBefore y + (row.take m.toNat).sum : ℕ) : ℤ) : ℚ))
      = .ok (y, m, (len : ℤ) + 1) := by
  obtain ⟨hy1, hy2, hget⟩ := monthDaysInBSYear_some hrow
  have hklen : (y - 2000).toNat < bsMonthRows.length := (List.get?_eq_some.mp hget).1
  have hrowk : bsMonthRows[(y - 2000).toNat] = row := by
    have h1 : bsMonthRows[(y - 2000).toNat]? = some row := by
      rw [← List.get?_eq_getElem?]
      exact hget
    rw [List.getElem?_eq_getElem hklen] at h1
    exact Option.some.inj h1
  obtain ⟨hrlen, hrpos⟩ := bsMonthRows_entries row (List.get?_mem hget)
  -- the month index inside the row
  have hget2 : row.get? (m - 1).toNat = some len := by
    unfold jsIndex at hlen
    rw [if_neg (by omega)] at hlen
    exact hlen
  have hi : (m - 1).toNat < row.length := (List.get?_eq_some.mp hget2).1
  have hlen_eq : row[(m - 1).toNat] = len := by
    have h1 : row[(m - 1).toNat]? = some len := by
      rw [← List.get?_eq_getElem?]
      exact hget2
    rw [List.getElem?_eq_getElem hi] at h1
    exact Option.some.inj h1
  have hlen_pos : 0 < len := by
    refine hrpos _ ?_
    rw [← hlen_eq]
    exact List.getElem_mem hi
  -- the prefix sum of the first m months splits off the m-th length
  have hmtn : m.toNat = (m - 1).toNat + 1 := by omega
  have hsum_eq : (row.take m.toNat).sum = (row.take (m - 1).toNat).sum + len := by
    rw [hmtn, List.sum_take_succ row (m - 1).toNat hi, hlen_eq]
  -- positivity and bound of the year-scan residue
  have hfirst : 0 < row[0] := hrpos _ (List.getElem_mem (by omega))
  have h01 : (row.take 1).sum = row[0] := by
    have h := List.sum_take_succ row 0 (by omega)
    simpa using h
  have hs : 0 < ((row.take m.toNat).sum : ℤ) := by
    have hle1 : (row.take 1).sum ≤ (row.take m.toNat).sum := sum_take_mono row (by omega)
    rw [h01] at hle1
    omega
  have hle : ((row.take m.toNat).sum : ℤ) ≤ (row.sum : ℤ) := by
    have h1 : (row.take m.toNat).sum ≤ (row.take row.length).sum :=
      sum_take_mono row (by omega)
    rw [List.take_length] at h1
    omega
  -- decompose the table at year y and run the year scan
  have hdecomp : bsMonthRows.take (y - 2000).toNat
      ++ row :: bsMonthRows.drop ((y - 2000).toNat + 1) = bsMonthRows := by
    conv_rhs => rw [← List.take_append_drop (y - 2000).toNat bsMonthRows]
    rw [List.drop_eq_getElem_cons hklen, hrowk]
  have hYB : yearsBefore y = ((bsMonthRows.take (y - 2000).toNat).map List.sum).sum := by
    unfold yearsBefore yearTotals
    rw [List.map_take]
  have hyear := yearScanZ_split (bsMonthRows.take (y - 2000).toNat) row
    (bsMonthRows.drop ((y - 2000).toNat + 1)) 2000 ((row.take m.toNat).sum : ℤ) hs hle
  rw [hdecomp] at hyear
  have htklen : ((bsMonthRows.take (y - 2000).toNat).length : ℤ) = y - 2000 := by
    rw [List.length_take]
    rw [bsMonthRows_length]
    omega
  rw [htklen] at hyear
  -- decompose the row at month m and run the month scan
  have hdecomp2 : row.take (m - 1).toNat ++ len :: row.drop ((m - 1).toNat + 1) = row := by
    conv_rhs => rw [← List.take_append_drop (m - 1).toNat row]
    rw [List.drop_eq_getElem_cons hi, hlen_eq]
  have hmonth := monthScanZ_split (row.take (m - 1).toNat) len
    (row.drop ((m - 1).toNat + 1)) 1 (len : ℤ) (by omega) le_rfl
  rw [hdecomp2] at hmonth
  have htklen2 : ((row.take (m - 1).toNat).length : ℤ) = m - 1 := by
    rw [List.length_take]
    rw [hrlen]
    omega
  rw [htklen2] at hmonth
  -- assemble
  rw [julianDaysToBS_intCast]
  unfold julianDaysToBSZ
  rw [show ((yearsBefore y + (row.take m.toNat).sum : ℕ) : ℤ)
      = (((bsMonthRows.take (y - 2000).toNat).map List.sum).sum : ℤ)
        + ((row.take m.toNat).sum : ℤ) by rw [← hYB]; push_cast; ring]
  unfold epochBSYear
  rw [hyear]
  rw [show ((row.take m.toNat).sum : ℤ)
      = (((row.take (m - 1).toNat).sum : ℕ) : ℤ) + (len : ℤ) by omega]
  dsimp only
  rw [hmonth]
  rw [show (2000 : ℤ) + (y - 2000) = y by ring, show (1 : ℤ) + (m - 1) = m by ring]

/-- C3 witness: the amended statement at the concrete boundary 30 days past
the epoch — the end of BS 2000-01, a 30-day month — where the result is day
31. -/
theorem C3_boundary_amended_witness :
    monthDaysInBSYear 2000 = some [30, 32, 31, 32, 31, 30, 30, 30, 29, 30, 29, 31]
    ∧ julianDaysToBS (epochJulianDays
        + (((yearsBefore 2000
              + ([30, 32, 31, 32, 31, 30, 30, 30, 29, 30, 29, 31].take (1 : ℤ).toNat).sum : ℕ) : ℤ) : ℚ))
      = .ok (2000, 1, (30 : ℤ) + 1) := by
  refine ⟨by decide, ?_⟩
  exact C3_boundary_amended 2000 1 [30, 32, 31, 32, 31, 30, 30, 30, 29, 30, 29, 31] 30
    (by decide) (by decide) (by decide) (by decide)

/-- On a table year, `monthsBefore` is the prefix sum of the row. -/
theorem monthsBefore_eq (y m : ℤ) (row : List ℕ)
    (hrow : monthDaysInBSYear y = some row) :
    monthsBefore y m = (row.take (m - 1).toNat).sum := by
  unfold monthsBefore
  rw [hrow]
  rfl

/-- Adding one more month length to the prefix sum of the first `m - 1`
months gives the prefix sum of the first `m` months. -/
theorem take_sum_succ_eq {row : List ℕ} {m : ℤ} {len : ℕ} (hm1 : 1 ≤ m)
    (hlen : jsIndex row (m - 1) = some len) :
    (row.take m.toNat).sum = (row.take (m - 1).toNat).sum + len := by
  have hget2 : row.get? (m - 1).toNat = some len := by
    unfold jsIndex at hlen
    rw [if_neg (by omega)] at hlen
    exact hlen
  have hi : (m - 1).toNat < row.length := (List.get?_eq_some.mp hget2).1
  have hlen_eq : row[(m - 1).toNat] = len := by
    have h1 : row[(m - 1).toNat]? = some len := by
      rw [← List.get?_eq_getElem?]
      exact hget2
    rw [List.getElem?_eq_getElem hi] at h1
    exact Option.some.inj h1
  rw [show m.toNat = (m - 1).toNat + 1 by omega,
    List.sum_take_succ row (m - 1).toNat hi, hlen_eq]

/-- Crossing a year boundary adds at least the whole source year. -/
theorem yearsBefore_step {y1 y2 : ℤ} {row1 : List ℕ}
    (hrow1 : monthDaysInBSYear y1 = some row1) (hlt : y1 < y2) :
    (yearsBefore y1 : ℤ) + (row1.sum : ℤ) ≤ (yearsBefore y2 : ℤ) := by
  obtain ⟨hy11, hy12, hget1⟩ := monthDaysInBSYear_some hrow1
  have hb := (List.get?_eq_some.mp hget1).1
  rw [bsMonthRows_length] at hb
  have ha1 : (y1 - 2000).toNat < yearTotals.length := by
    unfold yearTotals
    rw [List.length_map, bsMonthRows_length]
    omega
  have hyt : yearTotals[(y1 - 2000).toNat] = row1.sum := by
    have h1 : yearTotals[(y1 - 2000).toNat]? = some row1.sum := by
      unfold yearTotals
      rw [List.getElem?_map, ← List.get?_eq_getElem?, hget1]
      rfl
    rw [List.getElem?_eq_getElem ha1] at h1
    exact Option.some.inj h1
  have hstep : (yearTotals.take ((y1 - 2000).toNat + 1)).sum
      = (yearTotals.take (y1 - 2000).toNat).sum + row1.sum := by
    rw [List.sum_take_succ yearTotals (y1 - 2000).toNat ha1, hyt]
  have hmono : (yearTotals.take ((y1 - 2000).toNat + 1)).sum
      ≤ (yearTotals.take (y2 - 2000).toNat).sum :=
    sum_take_mono yearTotals (by omega)
  unfold yearsBefore
  omega

/-- Lexicographic strict order on the `(year, month, day)` triple. -/
def lexLt (a b : BSDate) : Prop :=
  a.year < b.year
    ∨ (a.year = b.year
        ∧ (a.month < b.month ∨ (a.month = b.month ∧ a.day < b.day)))

/-- C8: `bsToJulianDays` is strictly monotone: a valid BS date that is
lexicographically smaller than another valid BS date has a strictly smaller
Julian day value. -/
theorem C8_bsToJulianDays_strictMono (d1 d2 : BSDate)
    (h1 : validDate d1 = true) (h2 : validDate d2 = true) (hlt : lexLt d1 d2) :
    bsToJulianDays d1 < bsToJulianDays d2 := by
  obtain ⟨row1, hrow1, hm11, hm12, hd11, len1, hlen1, hd12⟩ := (validDate_iff d1).mp h1
  obtain ⟨row2, hrow2, hm21, hm22, hd21, len2, hlen2, hd22⟩ := (validDate_iff d2).mp h2
  obtain ⟨hrlen1, -⟩ := bsMonthRows_entries row1
    (List.get?_mem (monthDaysInBSYear_some hrow1).2.2)
  obtain ⟨hrlen2, -⟩ := bsMonthRows_entries row2
    (List.get?_mem (monthDaysInBSYear_some hrow2).2.2)
  rw [bsToJulianDays_eq d1, bsToJulianDays_eq d2]
  have key : (yearsBefore d1.year : ℤ) + (monthsBefore d1.year d1.month : ℤ) + (d1.day - 1)
      < (yearsBefore d2.year : ℤ) + (monthsBefore d2.year d2.month : ℤ) + (d2.day - 1) := by
    have hMB1 := monthsBefore_eq d1.year d1.month row1 hrow1
    have hMB2 := monthsBefore_eq d2.year d2.month row2 hrow2
    have hsucc1 := take_sum_succ_eq hm11 hlen1
    have hfull1 : (row1.take d1.month.toNat).sum ≤ row1.sum := by
      have h := sum_take_mono row1 (show d1.month.toNat ≤ row1.length by omega)
      rw [List.take_length] at h
      exact h
    rcases hlt with hy | ⟨hyeq, hm | ⟨hmeq, hd⟩⟩
    · have hstep := yearsBefore_step hrow1 hy
      have hMB2nn : (0 : ℤ) ≤ (monthsBefore d2.year d2.month : ℤ) := Int.natCast_nonneg _
      omega
    · have hroweq : row2 = row1 := by
        rw [hyeq] at hrow1
        rw [hrow1] at hrow2
        exact (Option.some.inj hrow2).symm
      have hmono : (row1.take d1.month.toNat).sum
          ≤ (row1.take (d2.month - 1).toNat).sum :=
        sum_take_mono row1 (by omega)
      rw [hyeq] at hMB1
      rw [hroweq] at hMB2
      rw [hyeq]
      omega
    · rw [hyeq, hmeq]
      omega
  have hq : (((yearsBefore d1.year : ℤ) + (monthsBefore d1.year d1.month : ℤ)
        + (d1.day - 1) : ℤ) : ℚ)
      < (((yearsBefore d2.year : ℤ) + (monthsBefore d2.year d2.month : ℤ)
        + (d2.day - 1) : ℤ) : ℚ) := by
    exact_mod_cast key
  exact add_lt_add_left hq epochJulianDays

/-- C8 witness: two concrete valid consecutive dates compare strictly. -/
theorem C8_bsToJulianDays_strictMono_witness :
    validDate ⟨2082, 5, 24⟩ = true ∧ validDate ⟨2082, 5, 25⟩ = true
    ∧ lexLt ⟨2082, 5, 24⟩ ⟨2082, 5, 25⟩
    ∧ bsToJulianDays ⟨2082, 5, 24⟩ < bsToJulianDays ⟨2082, 5, 25⟩ := by
  refine ⟨by decide, by decide, ?_, ?_⟩
  · right
    exact ⟨rfl, Or.inr ⟨rfl, by norm_num⟩⟩
  · exact C8_bsToJulianDays_strictMono ⟨2082, 5, 24⟩ ⟨2082, 5, 25⟩ (by decide) (by decide)
      (Or.inr ⟨rfl, Or.inr ⟨rfl, by norm_num⟩⟩)

/-- C10 counterexample: for the invalid date BS 2000-13-05 (month out of
range) `monthName` does not return a string — the JS array read
`Object.keys(months)[12]` is `undefined` (`none`). -/
theorem C10_counterexample :
    validDate ⟨2000, 13, 5⟩ = false
    ∧ monthName ⟨2000, 13, 5⟩ false = none := by
  exact ⟨by decide, by decide⟩

/-- C10 (amended): among the presentation operations only `dayName`
validates: on an invalid `BSDate` it raises `BSDateOutOfRangeError` via its
internal `toAD` whenever its options are not the rejected
romanized+localized combination; `toNepali` always returns a string (the
month part degrading to `"undefined"`); and `monthName` returns a string
whenever the month lies in `[1, 12]` (for an out-of-range month it yields
`undefined` rather than a string, though it still raises no range error). -/
theorem C10_presentation_amended (b : BSDate) (hb : validDate b = false) :
    (∀ romanized localized : Bool, ¬(romanized = true ∧ localized = true) →
        dayName b romanized localized
          = .error (.bsDateOutOfRange (rangeMessage b.year)))
    ∧ (∃ s1 s2, toNepali b = s1 ++ ", " ++ s2)
    ∧ (1 ≤ b.month → b.month ≤ 12 → ∃ s, monthName b false = some s) := by
  refine ⟨fun r l hrl => ?_, ?_, fun hm1 hm2 => ?_⟩
  · have hbool : (r && l) = false := by
      cases r <;> cases l <;> simp_all
    unfold dayName
    rw [if_neg (by simp [hbool])]
    have htoAD : toAD b = .error (.bsDateOutOfRange (rangeMessage b.year)) := by
      unfold toAD
      rw [if_neg (by simp [hb])]
    rw [htoAD]
  · exact ⟨(monthName b false).getD "undefined" ++ " " ++ toNepaliNum b.day,
      toNepaliNum b.year, rfl⟩
  · have hlt : (b.month - 1).toNat < monthKeysNepali.length := by
      rw [show monthKeysNepali.length = 12 from rfl]
      omega
    refine ⟨monthKeysNepali.get ⟨(b.month - 1).toNat, hlt⟩, ?_⟩
    show jsIndex monthKeysNepali (b.month - 1) = _
    unfold jsIndex
    rw [if_neg (by omega), List.get?_eq_get hlt]

/-- C10 witness: the invalid date BS 1999-05-25 — `dayName` raises the range
error while `monthName` still produces a month string. -/
theorem C10_presentation_amended_witness :
    validDate ⟨1999, 5, 25⟩ = false
    ∧ dayName ⟨1999, 5, 25⟩ false false
        = .error (.bsDateOutOfRange (rangeMessage 1999))
    ∧ ∃ s, monthName ⟨1999, 5, 25⟩ false = some s := by
  have h := C10_presentation_amended ⟨1999, 5, 25⟩ (by decide)
  exact ⟨by decide, h.1 false false (by simp), h.2.2 (by decide) (by decide)⟩

end BsDate
